import Mathlib

/-!
Shallow embedding of the `pencall` resource-allocation scheduler (Rust,
`src/lib.rs`).  Machine integers (`u64`) are modelled as `Nat` together with
explicit saturation at `2^64 - 1`, matching Rust's `saturating_add`,
`saturating_mul` and `saturating_sub` (the latter coincides with `Nat`
subtraction).  Timestamps are modelled as `Int` (they never influence control
flow apart from sleeping, which is not modelled).  The asynchronous scheduler
loop `run_allocation_simulation` is embedded as a step ("tick") function plus
a fuel-indexed iteration; the external `DeliveryProvider` is an oracle
sequence of outcomes, one per tick, and the external clock is a sequence of
timestamps.  The source duplicates all definitions once at top level and once
inside a `pencall` module; both copies are embedded (over shared data types)
so that their relationship can be stated.
-/

/-- Largest value representable in a `u64`. -/
def U64MAX : Nat := 2 ^ 64 - 1

/-- Rust `u64::saturating_add` on the `Nat` model. -/
def satAdd (a b : Nat) : Nat := min (a + b) U64MAX

/-- Rust `u64::saturating_mul` on the `Nat` model. -/
def satMul (a b : Nat) : Nat := min (a * b) U64MAX

/-- Error taxonomy of the library (`PencallError` in `src/lib.rs`). -/
inductive PencallError where
  | Unauthorized
  | InvalidArgs (msg : String)
  | DeliveryError (msg : String)
  | Internal (msg : String)
deriving DecidableEq, Repr

/-- An allocation request (`AllocationRequest` in `src/lib.rs`). -/
structure AllocationRequest where
  id : String
  requested_units : Nat
  start_time : Int
  initial_release : Option Nat
  doubling_interval_seconds : Nat
  cap_units : Option Nat
deriving DecidableEq, Repr

/-- Status of an allocation (`AllocationStatus` in `src/lib.rs`). -/
inductive AllocationStatus where
  | Pending
  | Active (released : Nat) (last_release_at : Int)
  | Completed
  | Cancelled
deriving DecidableEq, Repr

/-- An actionable release event (`ReleaseEvent` in `src/lib.rs`). -/
structure ReleaseEvent where
  allocation_id : String
  release_time : Int
  units : Nat
deriving DecidableEq, Repr

/-- The in-memory store: a keyed map from allocation id to (request, status),
modelled as an association list with replace-on-insert (`Store` in
`src/lib.rs`). -/
abbrev Store := List (String × (AllocationRequest × AllocationStatus))

instance : DecidableEq (Except PencallError Unit) := fun a b =>
  match a, b with
  | .ok (), .ok () => isTrue rfl
  | .ok (), .error _ => isFalse (fun h => Except.noConfusion h)
  | .error _, .ok () => isFalse (fun h => Except.noConfusion h)
  | .error e, .error f =>
    if h : e = f then isTrue (by rw [h])
    else isFalse (fun hc => h (Except.error.inj hc))

/-- Rust `HashMap::get` on the association-list model. -/
def storeGet : Store → String → Option (AllocationRequest × AllocationStatus)
  | [], _ => none
  | (k, v) :: rest, key => if k = key then some v else storeGet rest key

/-- Rust `HashMap::insert` (replace when present) on the association-list model. -/
def storeInsert : Store → String → AllocationRequest × AllocationStatus → Store
  | [], key, v => [(key, v)]
  | (k, w) :: rest, key, v =>
      if k = key then (key, v) :: rest else (k, w) :: storeInsert rest key v

/-- Rust `HashMap::contains_key` on the association-list model. -/
def storeContains (s : Store) (key : String) : Bool := (storeGet s key).isSome

/-- Embeds `Pencall::register_allocation` (lines 108-127): policy check first, then
argument validation, then duplicate-id check, then insertion with status
`Pending`.  The store is returned alongside the result; every error path
returns it unchanged. -/
def register_allocation (policy_check : AllocationRequest → Except PencallError Unit)
    (store : Store) (req : AllocationRequest) : Except PencallError Unit × Store :=
  match policy_check req with
  | .error e => (.error e, store)
  | .ok _ =>
    if req.requested_units = 0 then
      (.error (.InvalidArgs "requested_units must be > 0"), store)
    else if req.doubling_interval_seconds = 0 then
      (.error (.InvalidArgs "doubling_interval_seconds must be > 0"), store)
    else if storeContains store req.id then
      (.error (.InvalidArgs "id already exists"), store)
    else
      (.ok (), storeInsert store req.id (req, .Pending))

/-- Embeds `Pencall::activate` (lines 131-161): requires the allocation to exist with
status `Pending`; on success writes `Active {released := initial_release or 0}`
and hands the request to a freshly spawned scheduler task (third component);
activation itself performs no release. -/
def activate (store : Store) (allocation_id : String) (now : Int) :
    Except PencallError Unit × Store × Option AllocationRequest :=
  match storeGet store allocation_id with
  | none => (.error (.InvalidArgs "allocation not found"), store, none)
  | some (req, status) =>
    if status = .Pending then
      let initial := req.initial_release.getD 0
      (.ok (), storeInsert store req.id (req, .Active initial now), some req)
    else (.error (.InvalidArgs "allocation not in pending state"), store, none)

/-- Mutable state carried across iterations of `run_allocation_simulation`. -/
structure SimState where
  released_total : Nat
  next_release : Int
  current_chunk : Nat
deriving DecidableEq, Repr

/-- Initial scheduler state (lines 171-173): `released_total` starts at
`initial_release.unwrap_or(0)`, `next_release` at `start_time`, and
`current_chunk` at `max(1, initial_release.unwrap_or(1))`. -/
def initSimState (req : AllocationRequest) : SimState :=
  { released_total := req.initial_release.getD 0
    next_release := req.start_time
    current_chunk := max 1 (req.initial_release.getD 1) }

/-- Line 203: `possible_release = min(current_chunk, requested_units.saturating_sub(released_total))`. -/
def possible_release (req : AllocationRequest) (st : SimState) : Nat :=
  min st.current_chunk (req.requested_units - st.released_total)

/-- Line 204: `allowable_release = min(possible_release, cap.saturating_sub(released_total))`
with `cap = cap_units.unwrap_or(u64::MAX)` (line 176). -/
def allowable_release (req : AllocationRequest) (st : SimState) : Nat :=
  min (possible_release req st) (req.cap_units.getD U64MAX - st.released_total)

/-- Result of one iteration of the scheduler loop: either the loop returns
(`done`, with the `Result` value and final store) or it continues (`next`).
`attempted` records the `ReleaseEvent` constructed and handed to the provider
during the iteration, if any. -/
inductive TickResult where
  | done (result : Except PencallError Unit) (store : Store)
      (attempted : Option ReleaseEvent)
  | next (st : SimState) (store : Store) (attempted : Option ReleaseEvent)
deriving DecidableEq, Repr

/-- One iteration of the top-level `run_allocation_simulation` (lines 179-246):
cancellation check, allowable-release computation, completion check, delivery,
then chunk doubling and `next_release` reassignment.  The provider outcome for
the tick's (single, potential) delivery call is `outcome`; `now` is the
ambient clock.  Note that the chunk doubling and `next_release` update at
lines 242-243 run after the delivery `match` on both its branches, so they
happen on failed deliveries too; a failed delivery leaves `released_total`
and the store unchanged and the loop continues (the error is absorbed). -/
def run_allocation_simulation_tick (req : AllocationRequest) (store : Store)
    (st : SimState) (outcome : Except PencallError Unit) (now : Int) : TickResult :=
  match storeGet store req.id with
  | none => .done (.error (.Internal "allocation disappeared")) store none
  | some (_, status) =>
    if status = .Cancelled then .done (.ok ()) store none
    else
      let allowable := allowable_release req st
      if allowable = 0 then
        .done (.ok ()) (storeInsert store req.id (req, .Completed)) none
      else
        let event : ReleaseEvent :=
          { allocation_id := req.id, release_time := now, units := allowable }
        match outcome with
        | .ok _ =>
          let released' := satAdd st.released_total allowable
          let store' := storeInsert store req.id (req, .Active released' now)
          .next { released_total := released'
                  next_release := now + (req.doubling_interval_seconds : Int)
                  current_chunk := satMul st.current_chunk 2 } store' (some event)
        | .error _ =>
          .next { released_total := st.released_total
                  next_release := now + (req.doubling_interval_seconds : Int)
                  current_chunk := satMul st.current_chunk 2 } store (some event)

namespace pencall

/-- Embeds `pencall::Pencall::register_allocation` (lines 327-342); textually the same
algorithm as the top-level one. -/
def register_allocation (policy_check : AllocationRequest → Except PencallError Unit)
    (store : Store) (req : AllocationRequest) : Except PencallError Unit × Store :=
  match policy_check req with
  | .error e => (.error e, store)
  | .ok _ =>
    if req.requested_units = 0 then
      (.error (.InvalidArgs "requested_units must be > 0"), store)
    else if req.doubling_interval_seconds = 0 then
      (.error (.InvalidArgs "doubling_interval_seconds must be > 0"), store)
    else if storeContains store req.id then
      (.error (.InvalidArgs "id already exists"), store)
    else
      (.ok (), storeInsert store req.id (req, .Pending))

/-- Embeds `pencall::Pencall::activate` (lines 344-370); textually the same algorithm
as the top-level one. -/
def activate (store : Store) (allocation_id : String) (now : Int) :
    Except PencallError Unit × Store × Option AllocationRequest :=
  match storeGet store allocation_id with
  | none => (.error (.InvalidArgs "allocation not found"), store, none)
  | some (req, status) =>
    if status = .Pending then
      let initial := req.initial_release.getD 0
      (.ok (), storeInsert store req.id (req, .Active initial now), some req)
    else (.error (.InvalidArgs "allocation not in pending state"), store, none)

/-- One iteration of `pencall::run_allocation_simulation` (lines 384-416).
Unlike the top-level copy, this loop body never reads the store: it has no
cancellation check and no missing-entry check (lines 384-391 go straight from
the sleep to the allowable-release computation), and a failed delivery is
propagated out of the loop by the `?` at line 405
(`provider.deliver(&event).await?`), returning the delivery error. -/
def run_allocation_simulation_tick (req : AllocationRequest) (store : Store)
    (st : SimState) (outcome : Except PencallError Unit) (now : Int) : TickResult :=
  let allowable := allowable_release req st
  if allowable = 0 then
    .done (.ok ()) (storeInsert store req.id (req, .Completed)) none
  else
    let event : ReleaseEvent :=
      { allocation_id := req.id, release_time := now, units := allowable }
    match outcome with
    | .ok _ =>
      let released' := satAdd st.released_total allowable
      let store' := storeInsert store req.id (req, .Active released' now)
      .next { released_total := released'
              next_release := now + (req.doubling_interval_seconds : Int)
              current_chunk := satMul st.current_chunk 2 } store' (some event)
    | .error e => .done (.error e) store (some event)

end pencall

/-- Result of iterating the scheduler loop under a fuel bound: either the loop
returned (`terminated`), or the fuel ran out mid-loop (`outOfFuel`).  `events`
lists every `ReleaseEvent` constructed and handed to the provider, in order. -/
inductive RunResult where
  | terminated (result : Except PencallError Unit) (store : Store)
      (events : List ReleaseEvent)
  | outOfFuel (st : SimState) (store : Store) (events : List ReleaseEvent)
deriving DecidableEq, Repr

/-- The top-level scheduler loop `run_allocation_simulation` (lines 166-247),
iterated for at most `fuel` ticks.  `outcomes n` is the provider outcome for
the delivery call of tick `n` (if that tick delivers) and `clock n` the
ambient time at tick `n`. -/
def run_allocation_simulation (req : AllocationRequest)
    (outcomes : Nat → Except PencallError Unit) (clock : Nat → Int) :
    Nat → Store → SimState → RunResult
  | 0, store, st => .outOfFuel st store []
  | fuel + 1, store, st =>
    match run_allocation_simulation_tick req store st (outcomes 0) (clock 0) with
    | .done r store' att => .terminated r store' att.toList
    | .next st' store' att =>
      match run_allocation_simulation req (fun n => outcomes (n + 1))
          (fun n => clock (n + 1)) fuel store' st' with
      | .terminated r s2 evs => .terminated r s2 (att.toList ++ evs)
      | .outOfFuel st2 s2 evs => .outOfFuel st2 s2 (att.toList ++ evs)

/-- The successive values of `released_total` observed along a run of the
top-level scheduler loop (the value at entry of each iteration, which is
exactly the `released` field of the `Active` status most recently written to
the store, or the activation-time value for the first iteration). -/
def releasedTrace (req : AllocationRequest)
    (outcomes : Nat → Except PencallError Unit) (clock : Nat → Int) :
    Nat → Store → SimState → List Nat
  | 0, _, st => [st.released_total]
  | fuel + 1, store, st =>
    match run_allocation_simulation_tick req store st (outcomes 0) (clock 0) with
    | .done _ _ _ => [st.released_total]
    | .next st' store' _ =>
        st.released_total ::
          releasedTrace req (fun n => outcomes (n + 1)) (fun n => clock (n + 1))
            fuel store' st'

/-- The store component of a tick result. -/
def TickResult.storeOf : TickResult → Store
  | .done _ s _ => s
  | .next _ s _ => s

/-- The release event constructed and handed to the provider during a tick,
if any. -/
def TickResult.attemptedOf : TickResult → Option ReleaseEvent
  | .done _ _ a => a
  | .next _ _ a => a

/-- The chunk size carried into the following iteration, when the loop
continues. -/
def TickResult.chunkAfter : TickResult → Option Nat
  | .done _ _ _ => none
  | .next st _ _ => some st.current_chunk

/-- The released total carried into the following iteration, when the loop
continues. -/
def TickResult.releasedAfter : TickResult → Option Nat
  | .done _ _ _ => none
  | .next st _ _ => some st.released_total

/-- The list of release events constructed during a run. -/
def RunResult.eventsOf : RunResult → List ReleaseEvent
  | .terminated _ _ evs => evs
  | .outOfFuel _ _ evs => evs

/-- The delivery provider of `examples/basic.rs` (`ConsoleProvider`): every
delivery succeeds. -/
def consoleProviderOutcomes : Nat → Except PencallError Unit := fun _ => .ok ()

/-- A constant ambient clock; adequate because timestamps never influence the
scheduler's control flow. -/
def zeroClock : Nat → Int := fun _ => 0

/-- The policy of `examples/basic.rs`: approves every request. -/
def approveAll : AllocationRequest → Except PencallError Unit := fun _ => .ok ()

/-- A policy that rejects every request with `Unauthorized`. -/
def rejectAll : AllocationRequest → Except PencallError Unit :=
  fun _ => .error .Unauthorized

/-- The `AllocationRequest` built in `examples/basic.rs` (lines 24-31), with
its `Utc::now()` start time rendered as instant `0`. -/
def demo_request : AllocationRequest :=
  { id := "demo1", requested_units := 16, start_time := 0,
    initial_release := some 1, doubling_interval_seconds := 2,
    cap_units := some 32 }

/-- The store immediately after `register_allocation` and `activate` of the
demo request, taking instant `0` as the activation time. -/
def demo_store : Store := [("demo1", (demo_request, .Active 1 0))]

/-- The demo store after its status has been set to `Cancelled` between two
scheduler ticks. -/
def cancelled_demo_store : Store := [("demo1", (demo_request, .Cancelled))]

/-- A request whose `initial_release` (5) exceeds the effective ceiling
`min(requested_units, cap_units) = min(1, 10) = 1`. -/
def excess_request : AllocationRequest :=
  { id := "x", requested_units := 1, start_time := 0,
    initial_release := some 5, doubling_interval_seconds := 1,
    cap_units := some 10 }

/-- The store immediately after `register_allocation` and `activate` of
`excess_request` (activation instant `0`). -/
def excess_store : Store := [("x", (excess_request, .Active 5 0))]

/-! ### Helper lemmas -/

theorem U64MAX_eq : U64MAX = 18446744073709551615 := by norm_num [U64MAX]

theorem storeGet_insert_self (s : Store) (k : String)
    (v : AllocationRequest × AllocationStatus) :
    storeGet (storeInsert s k v) k = some v := by
  induction s with
  | nil => simp [storeInsert, storeGet]
  | cons hd tl ih =>
    obtain ⟨k0, v0⟩ := hd
    by_cases h : k0 = k
    · simp [storeInsert, h, storeGet]
    · simp [storeInsert, h, storeGet, ih]

theorem storeGet_insert_ne (s : Store) (k k' : String)
    (v : AllocationRequest × AllocationStatus) (h : k' ≠ k) :
    storeGet (storeInsert s k v) k' = storeGet s k' := by
  induction s with
  | nil => simp [storeInsert, storeGet, Ne.symm h]
  | cons hd tl ih =>
    obtain ⟨k0, v0⟩ := hd
    by_cases h0 : k0 = k
    · subst h0
      simp [storeInsert, storeGet, Ne.symm h]
    · simp only [storeInsert, if_neg h0, storeGet]
      by_cases h1 : k0 = k'
      · simp [h1]
      · simp [h1, ih]

theorem tick_of_missing (req : AllocationRequest) (store : Store) (st : SimState)
    (out : Except PencallError Unit) (now : Int)
    (h : storeGet store req.id = none) :
    run_allocation_simulation_tick req store st out now =
      .done (.error (.Internal "allocation disappeared")) store none := by
  simp [run_allocation_simulation_tick, h]

theorem tick_of_cancelled (req : AllocationRequest) (store : Store) (st : SimState)
    (out : Except PencallError Unit) (now : Int) (q : AllocationRequest)
    (h : storeGet store req.id = some (q, .Cancelled)) :
    run_allocation_simulation_tick req store st out now = .done (.ok ()) store none := by
  simp [run_allocation_simulation_tick, h]

theorem tick_of_complete (req : AllocationRequest) (store : Store) (st : SimState)
    (out : Except PencallError Unit) (now : Int)
    (q : AllocationRequest) (s0 : AllocationStatus)
    (h : storeGet store req.id = some (q, s0)) (hs : s0 ≠ .Cancelled)
    (hz : allowable_release req st = 0) :
    run_allocation_simulation_tick req store st out now =
      .done (.ok ()) (storeInsert store req.id (req, .Completed)) none := by
  simp [run_allocation_simulation_tick, h, hs, hz]

theorem tick_of_ok (req : AllocationRequest) (store : Store) (st : SimState)
    (now : Int) (q : AllocationRequest) (s0 : AllocationStatus)
    (h : storeGet store req.id = some (q, s0)) (hs : s0 ≠ .Cancelled)
    (hnz : allowable_release req st ≠ 0) :
    run_allocation_simulation_tick req store st (.ok ()) now =
      .next { released_total := satAdd st.released_total (allowable_release req st)
              next_release := now + (req.doubling_interval_seconds : Int)
              current_chunk := satMul st.current_chunk 2 }
        (storeInsert store req.id
          (req, .Active (satAdd st.released_total (allowable_release req st)) now))
        (some { allocation_id := req.id, release_time := now
                units := allowable_release req st }) := by
  simp [run_allocation_simulation_tick, h, hs, hnz]

theorem tick_of_err (req : AllocationRequest) (store : Store) (st : SimState)
    (now : Int) (e : PencallError) (q : AllocationRequest) (s0 : AllocationStatus)
    (h : storeGet store req.id = some (q, s0)) (hs : s0 ≠ .Cancelled)
    (hnz : allowable_release req st ≠ 0) :
    run_allocation_simulation_tick req store st (.error e) now =
      .next { released_total := st.released_total
              next_release := now + (req.doubling_interval_seconds : Int)
              current_chunk := satMul st.current_chunk 2 }
        store
        (some { allocation_id := req.id, release_time := now
                units := allowable_release req st }) := by
  simp [run_allocation_simulation_tick, h, hs, hnz]

theorem pencall_tick_of_complete (req : AllocationRequest) (store : Store)
    (st : SimState) (out : Except PencallError Unit) (now : Int)
    (hz : allowable_release req st = 0) :
    pencall.run_allocation_simulation_tick req store st out now =
      .done (.ok ()) (storeInsert store req.id (req, .Completed)) none := by
  simp [pencall.run_allocation_simulation_tick, hz]

theorem pencall_tick_of_ok (req : AllocationRequest) (store : Store)
    (st : SimState) (now : Int) (hnz : allowable_release req st ≠ 0) :
    pencall.run_allocation_simulation_tick req store st (.ok ()) now =
      .next { released_total := satAdd st.released_total (allowable_release req st)
              next_release := now + (req.doubling_interval_seconds : Int)
              current_chunk := satMul st.current_chunk 2 }
        (storeInsert store req.id
          (req, .Active (satAdd st.released_total (allowable_release req st)) now))
        (some { allocation_id := req.id, release_time := now
                units := allowable_release req st }) := by
  simp [pencall.run_allocation_simulation_tick, hnz]

theorem pencall_tick_of_err (req : AllocationRequest) (store : Store)
    (st : SimState) (now : Int) (e : PencallError)
    (hnz : allowable_release req st ≠ 0) :
    pencall.run_allocation_simulation_tick req store st (.error e) now =
      .done (.error e) store
        (some { allocation_id := req.id, release_time := now
                units := allowable_release req st }) := by
  simp [pencall.run_allocation_simulation_tick, hnz]

/-! ### Claim C1: the duplicated top-level and namespaced definitions -/

/-- Claim C1, counterexample: the two `run_allocation_simulation` step
functions are not extensionally equal.  On the demo request with an active
store entry and a failing provider outcome, the top-level step continues the
loop while the namespaced step terminates with the delivery error. -/
theorem sim_tick_copies_differ :
    run_allocation_simulation_tick demo_request demo_store
        (initSimState demo_request) (.error (.DeliveryError "boom")) 0 ≠
      pencall.run_allocation_simulation_tick demo_request demo_store
        (initSimState demo_request) (.error (.DeliveryError "boom")) 0 := by
  decide

/-- Claim C1 (amended): the duplicated `register_allocation` and `activate`
definitions are extensionally equal, and the two simulation step functions
agree on any tick whose store entry exists with a non-`Cancelled` status and
whose delivery outcome is success; they differ on failed deliveries (absorbed
vs propagated) and on the cancellation / missing-entry checks, which only the
top-level loop performs. -/
theorem duplicated_defs_agreement :
    (∀ pc store req,
        pencall.register_allocation pc store req = register_allocation pc store req) ∧
    (∀ store i now, pencall.activate store i now = activate store i now) ∧
    (∀ req store st now q s0, storeGet store req.id = some (q, s0) →
        s0 ≠ .Cancelled →
        pencall.run_allocation_simulation_tick req store st (.ok ()) now =
          run_allocation_simulation_tick req store st (.ok ()) now) := by
  refine ⟨fun _ _ _ => rfl, fun _ _ _ => rfl, fun req store st now q s0 hg hs => ?_⟩
  by_cases hz : allowable_release req st = 0
  · rw [pencall_tick_of_complete req store st _ now hz,
      tick_of_complete req store st _ now q s0 hg hs hz]
  · rw [pencall_tick_of_ok req store st now hz,
      tick_of_ok req store st now q s0 hg hs hz]

/-- Claim C1, witness for the amended agreement: a successful tick of the demo
request is treated identically by the two step functions. -/
theorem duplicated_defs_agreement_witness :
    pencall.run_allocation_simulation_tick demo_request demo_store
        (initSimState demo_request) (.ok ()) 0 =
      run_allocation_simulation_tick demo_request demo_store
        (initSimState demo_request) (.ok ()) 0 :=
  duplicated_defs_agreement.2.2 demo_request demo_store (initSimState demo_request)
    0 demo_request (.Active 1 0) (by decide) (by decide)

/-! ### Claim C2: behaviour of a tick whose delivery fails -/

/-- Claim C2, counterexample: on a failed delivery the top-level loop does
advance `current_chunk` (it is doubled from 1 to 2) and `next_release` (set to
`now + doubling_interval_seconds`), because the advance step at lines 242-243
runs after both branches of the delivery `match`. -/
theorem failed_tick_advances_counterexample :
    (run_allocation_simulation_tick demo_request demo_store
        (initSimState demo_request) (.error (.DeliveryError "boom")) 0).chunkAfter =
      some 2 ∧
    (initSimState demo_request).current_chunk = 1 ∧
    (run_allocation_simulation_tick demo_request demo_store
        (initSimState demo_request) (.error (.DeliveryError "boom")) 0) =
      .next { released_total := 1, next_release := 2, current_chunk := 2 }
        demo_store
        (some { allocation_id := "demo1", release_time := 0, units := 1 }) := by
  decide

/-- Claim C2 (amended): when the delivery of a tick fails, the top-level loop
leaves `released_total` and the store unchanged and absorbs the error (the
loop continues), but it still doubles `current_chunk` and reassigns
`next_release`, exactly as after a success; the retried tick therefore
recomputes `allowable` with the doubled chunk.  In the namespaced duplicate
the delivery error instead propagates out of the loop. -/
theorem failed_tick_semantics (req : AllocationRequest) (store : Store)
    (st : SimState) (now : Int) (e : PencallError)
    (q : AllocationRequest) (s0 : AllocationStatus)
    (hg : storeGet store req.id = some (q, s0)) (hs : s0 ≠ .Cancelled)
    (hnz : allowable_release req st ≠ 0) :
    run_allocation_simulation_tick req store st (.error e) now =
      .next { released_total := st.released_total
              next_release := now + (req.doubling_interval_seconds : Int)
              current_chunk := satMul st.current_chunk 2 }
        store
        (some { allocation_id := req.id, release_time := now
                units := allowable_release req st }) ∧
    pencall.run_allocation_simulation_tick req store st (.error e) now =
      .done (.error e) store
        (some { allocation_id := req.id, release_time := now
                units := allowable_release req st }) :=
  ⟨tick_of_err req store st now e q s0 hg hs hnz,
    pencall_tick_of_err req store st now e hnz⟩

/-- Claim C2, witness: the amended failed-tick semantics instantiated on the
demo request's first tick. -/
theorem failed_tick_semantics_witness :
    run_allocation_simulation_tick demo_request demo_store
        (initSimState demo_request) (.error (.DeliveryError "boom")) 0 =
      .next { released_total := 1, next_release := 2, current_chunk := 2 }
        demo_store
        (some { allocation_id := "demo1", release_time := 0, units := 1 }) ∧
    pencall.run_allocation_simulation_tick demo_request demo_store
        (initSimState demo_request) (.error (.DeliveryError "boom")) 0 =
      .done (.error (.DeliveryError "boom")) demo_store
        (some { allocation_id := "demo1", release_time := 0, units := 1 }) :=
  failed_tick_semantics demo_request demo_store (initSimState demo_request) 0
    (.DeliveryError "boom") demo_request (.Active 1 0) (by decide) (by decide)
    (by decide)

/-! ### Claim C5: the example scenario of `examples/basic.rs` -/

/-- Claim C5, counterexample: the sequence of delivered allowable releases for
the demo request is not `1,2,4,8,1`.  `released_total` starts at the
activation-time `initial_release = 1`, so only four delivery ticks occur. -/
theorem demo_sequence_counterexample :
    (run_allocation_simulation demo_request consoleProviderOutcomes zeroClock 6
        demo_store (initSimState demo_request)).eventsOf.map ReleaseEvent.units ≠
      [1, 2, 4, 8, 1] := by
  decide

/-- Claim C5 (amended): for the demo request (`requested_units = 16`,
`initial_release = 1`, `doubling_interval_seconds = 2`, `cap_units = 32`) and
an always-succeeding provider, the scheduler delivers the allowable releases
`1, 2, 4, 8` (summing to 15); together with the initial release of 1 counted
at activation, the observed `released` values are `1, 2, 4, 8, 16`, and the
allocation ends `Completed` with `released = 16`. -/
theorem demo_run_exact :
    run_allocation_simulation demo_request consoleProviderOutcomes zeroClock 6
        demo_store (initSimState demo_request) =
      .terminated (.ok ()) [("demo1", (demo_request, .Completed))]
        [{ allocation_id := "demo1", release_time := 0, units := 1 },
         { allocation_id := "demo1", release_time := 0, units := 2 },
         { allocation_id := "demo1", release_time := 0, units := 4 },
         { allocation_id := "demo1", release_time := 0, units := 8 }] ∧
    ((run_allocation_simulation demo_request consoleProviderOutcomes zeroClock 6
        demo_store (initSimState demo_request)).eventsOf.map ReleaseEvent.units).sum =
      15 ∧
    releasedTrace demo_request consoleProviderOutcomes zeroClock 6 demo_store
        (initSimState demo_request) = [1, 2, 4, 8, 16] := by
  refine ⟨by decide, by decide, by decide⟩

/-! ### Claim C6: cancellation between two ticks -/

/-- Claim C6, counterexample: the namespaced scheduler loop has no
cancellation check (its body never reads the store), so with the demo
allocation's status set to `Cancelled` between two ticks it still constructs
and delivers a further `ReleaseEvent`, continues the loop, and even
overwrites the `Cancelled` status with `Active`. -/
theorem cancelled_ignored_by_pencall_loop :
    storeGet cancelled_demo_store demo_request.id =
      some (demo_request, .Cancelled) ∧
    pencall.run_allocation_simulation_tick demo_request cancelled_demo_store
        (initSimState demo_request) (.ok ()) 0 =
      .next { released_total := 2, next_release := 2, current_chunk := 2 }
        [("demo1", (demo_request, .Active 2 0))]
        (some { allocation_id := "demo1", release_time := 0, units := 1 }) := by
  decide

/-- Claim C6 (amended): in the top-level scheduler, once the status is
`Cancelled` the loop terminates successfully at its next cancellation check,
leaving the store untouched and constructing no further `ReleaseEvent`
whatever the remaining fuel, provider outcomes and clock are.  The namespaced
duplicate performs no cancellation check: with a `Cancelled` status and a
nonzero allowable it still hands a `ReleaseEvent` to the provider. -/
theorem cancelled_terminates_top_level :
    (∀ (req : AllocationRequest) (o : Nat → Except PencallError Unit)
        (c : Nat → Int) (fuel : Nat) (store : Store) (st : SimState)
        (q : AllocationRequest), storeGet store req.id = some (q, .Cancelled) →
        run_allocation_simulation req o c (fuel + 1) store st =
          .terminated (.ok ()) store []) ∧
    (∀ (req : AllocationRequest) (store : Store) (st : SimState) (now : Int)
        (q : AllocationRequest), storeGet store req.id = some (q, .Cancelled) →
        allowable_release req st ≠ 0 →
        (pencall.run_allocation_simulation_tick req store st (.ok ()) now).attemptedOf =
          some { allocation_id := req.id, release_time := now
                 units := allowable_release req st }) := by
  constructor
  · intro req o c fuel store st q hg
    simp [run_allocation_simulation,
      tick_of_cancelled req store st (o 0) (c 0) q hg, Option.toList]
  · intro req store st now q hg hnz
    rw [pencall_tick_of_ok req store st now hnz]
    rfl

/-- Claim C6, witness: cancellation of the demo allocation stops the
top-level scheduler with no further event, while the namespaced step still
attempts a delivery. -/
theorem cancelled_terminates_top_level_witness :
    run_allocation_simulation demo_request consoleProviderOutcomes zeroClock 3
        cancelled_demo_store (initSimState demo_request) =
      .terminated (.ok ()) cancelled_demo_store [] ∧
    (pencall.run_allocation_simulation_tick demo_request cancelled_demo_store
        (initSimState demo_request) (.ok ()) 0).attemptedOf =
      some { allocation_id := "demo1", release_time := 0, units := 1 } :=
  ⟨cancelled_terminates_top_level.1 demo_request consoleProviderOutcomes zeroClock
      2 cancelled_demo_store (initSimState demo_request) demo_request (by decide),
    cancelled_terminates_top_level.2 demo_request cancelled_demo_store
      (initSimState demo_request) 0 demo_request (by decide) (by decide)⟩

/-! ### Claim C3: monotonicity and bounds of `released` -/

theorem tick_next_released (req : AllocationRequest) (store : Store) (st : SimState)
    (out : Except PencallError Unit) (now : Int) (st' : SimState) (store' : Store)
    (att : Option ReleaseEvent)
    (h : run_allocation_simulation_tick req store st out now = .next st' store' att)
    (hb : st.released_total ≤ U64MAX) :
    st.released_total ≤ st'.released_total ∧ st'.released_total ≤ U64MAX ∧
      st'.released_total ≤ max st.released_total
        (min req.requested_units (req.cap_units.getD U64MAX)) := by
  rcases hg : storeGet store req.id with _ | ⟨q, s0⟩
  · rw [tick_of_missing req store st out now hg] at h
    exact absurd h (by simp)
  · by_cases hc : s0 = .Cancelled
    · subst hc
      rw [tick_of_cancelled req store st out now q hg] at h
      exact absurd h (by simp)
    · by_cases hz : allowable_release req st = 0
      · rw [tick_of_complete req store st out now q s0 hg hc hz] at h
        exact absurd h (by simp)
      · rcases out with e | u
        · rw [tick_of_err req store st now e q s0 hg hc hz] at h
          injection h with h1 h2 h3
          subst h1
          exact ⟨le_refl _, hb, le_max_left _ _⟩
        · cases u
          rw [tick_of_ok req store st now q s0 hg hc hz] at h
          injection h with h1 h2 h3
          subst h1
          simp only [satAdd, allowable_release, possible_release, U64MAX_eq] at hz hb ⊢
          omega

theorem releasedTrace_cons (req : AllocationRequest)
    (o : Nat → Except PencallError Unit) (c : Nat → Int) (fuel : Nat)
    (store : Store) (st : SimState) :
    ∃ rest, releasedTrace req o c fuel store st = st.released_total :: rest := by
  cases fuel with
  | zero => exact ⟨[], rfl⟩
  | succ n =>
    rcases ht : run_allocation_simulation_tick req store st (o 0) (c 0) with
      ⟨r, s, a⟩ | ⟨st', s', a⟩
    · exact ⟨[], by simp [releasedTrace, ht]⟩
    · exact ⟨releasedTrace req (fun n => o (n + 1)) (fun n => c (n + 1)) n s' st',
        by simp [releasedTrace, ht]⟩

theorem releasedTrace_chain (req : AllocationRequest) :
    ∀ (fuel : Nat) (o : Nat → Except PencallError Unit) (c : Nat → Int)
      (store : Store) (st : SimState), st.released_total ≤ U64MAX →
      List.Chain' (· ≤ ·) (releasedTrace req o c fuel store st) := by
  intro fuel
  induction fuel with
  | zero => intro o c store st hb; simp [releasedTrace]
  | succ n ih =>
    intro o c store st hb
    rcases ht : run_allocation_simulation_tick req store st (o 0) (c 0) with
      ⟨r, s, a⟩ | ⟨st', s', a⟩
    · simp [releasedTrace, ht]
    · have hrel := tick_next_released req store st (o 0) (c 0) st' s' a ht hb
      obtain ⟨rest, hr⟩ :=
        releasedTrace_cons req (fun n => o (n + 1)) (fun n => c (n + 1)) n s' st'
      simp only [releasedTrace, ht]
      rw [hr, List.chain'_cons]
      exact ⟨hrel.1, by rw [← hr]; exact ih _ _ s' st' hrel.2.1⟩

theorem releasedTrace_le (req : AllocationRequest) :
    ∀ (fuel : Nat) (o : Nat → Except PencallError Unit) (c : Nat → Int)
      (store : Store) (st : SimState) (B : Nat), st.released_total ≤ U64MAX →
      st.released_total ≤ B →
      min req.requested_units (req.cap_units.getD U64MAX) ≤ B →
      ∀ x ∈ releasedTrace req o c fuel store st, x ≤ B := by
  intro fuel
  induction fuel with
  | zero =>
    intro o c store st B hb hB hcap x hx
    simp [releasedTrace] at hx
    omega
  | succ n ih =>
    intro o c store st B hb hB hcap x hx
    rcases ht : run_allocation_simulation_tick req store st (o 0) (c 0) with
      ⟨r, s, a⟩ | ⟨st', s', a⟩
    · rw [releasedTrace, ht] at hx
      simp at hx
      omega
    · rw [releasedTrace, ht] at hx
      have hrel := tick_next_released req store st (o 0) (c 0) st' s' a ht hb
      rcases List.mem_cons.mp hx with rfl | hx'
      · omega
      · exact ih _ _ s' st' B hrel.2.1 (le_trans hrel.2.2 (max_le hB hcap)) hcap x hx'

/-- Claim C3, counterexample: `initial_release` is never validated, so the
`released` value observed in the `Active` status written by `activate` can
exceed `min(requested_units, cap_units)`.  For `excess_request`
(`requested_units = 1`, `cap_units = 10`, `initial_release = 5`) the observed
value 5 exceeds the ceiling 1. -/
theorem released_bound_counterexample :
    5 ∈ releasedTrace excess_request consoleProviderOutcomes zeroClock 3
        excess_store (initSimState excess_request) ∧
    ¬ (5 ≤ min excess_request.requested_units
          (excess_request.cap_units.getD U64MAX)) := by
  decide

/-- Claim C3 (amended): along any run of the scheduler started from the
activation-time state, the observed `released` values are monotonically
non-decreasing, and every observed value is at most
`max(initial_release.unwrap_or(0), min(requested_units, cap_units-or-MAX))`;
in particular the claimed ceiling `min(requested_units, cap_units)` holds
whenever `initial_release` does not already exceed it. -/
theorem released_monotone_and_bounded (req : AllocationRequest)
    (o : Nat → Except PencallError Unit) (c : Nat → Int) (fuel : Nat)
    (store : Store) (hinit : req.initial_release.getD 0 ≤ U64MAX) :
    List.Chain' (· ≤ ·) (releasedTrace req o c fuel store (initSimState req)) ∧
      ∀ x ∈ releasedTrace req o c fuel store (initSimState req),
        x ≤ max (req.initial_release.getD 0)
          (min req.requested_units (req.cap_units.getD U64MAX)) :=
  ⟨releasedTrace_chain req fuel o c store _ hinit,
    releasedTrace_le req fuel o c store _ _ hinit (le_max_left _ _)
      (le_max_right _ _)⟩

/-- Claim C3, witness: monotonicity and the amended bound instantiated on the
demo request's run. -/
theorem released_monotone_and_bounded_witness :
    List.Chain' (· ≤ ·) (releasedTrace demo_request consoleProviderOutcomes
        zeroClock 6 demo_store (initSimState demo_request)) ∧
      ∀ x ∈ releasedTrace demo_request consoleProviderOutcomes zeroClock 6
          demo_store (initSimState demo_request),
        x ≤ max (demo_request.initial_release.getD 0)
          (min demo_request.requested_units (demo_request.cap_units.getD U64MAX)) :=
  released_monotone_and_bounded demo_request consoleProviderOutcomes zeroClock 6
    demo_store (by decide)

/-! ### Claim C4: the allowable-release computation and the path to Completed -/

theorem storeGet_insert_cases (s : Store) (k : String)
    (v : AllocationRequest × AllocationStatus) (k' : String) :
    storeGet (storeInsert s k v) k' = if k' = k then some v else storeGet s k' := by
  by_cases h : k' = k
  · subst h; simp [storeGet_insert_self]
  · simp [h, storeGet_insert_ne _ _ _ _ h]

theorem register_store_cases (pc : AllocationRequest → Except PencallError Unit)
    (store : Store) (req : AllocationRequest) :
    (register_allocation pc store req).2 = store ∨
      (register_allocation pc store req).2 =
        storeInsert store req.id (req, .Pending) := by
  cases hpc : pc req with
  | error e => left; simp [register_allocation, hpc]
  | ok u =>
    by_cases h1 : req.requested_units = 0
    · left; simp [register_allocation, hpc, h1]
    · by_cases h2 : req.doubling_interval_seconds = 0
      · left; simp [register_allocation, hpc, h1, h2]
      · by_cases h3 : storeContains store req.id
        · left; simp [register_allocation, hpc, h1, h2, h3]
        · right; simp [register_allocation, hpc, h1, h2, h3]

theorem activate_store_cases (store : Store) (i : String) (now : Int) :
    (activate store i now).2.1 = store ∨
      ∃ q, storeGet store i = some (q, .Pending) ∧
        (activate store i now).2.1 =
          storeInsert store q.id (q, .Active (q.initial_release.getD 0) now) := by
  cases hg : storeGet store i with
  | none => left; simp [activate, hg]
  | some p =>
    obtain ⟨q, s0⟩ := p
    by_cases hp : s0 = .Pending
    · subst hp
      right
      exact ⟨q, rfl, by simp [activate, hg]⟩
    · left; simp [activate, hg, hp]

theorem tick_store_cases (req : AllocationRequest) (store : Store) (st : SimState)
    (out : Except PencallError Unit) (now : Int) :
    (run_allocation_simulation_tick req store st out now).storeOf = store ∨
      (allowable_release req st = 0 ∧
        (run_allocation_simulation_tick req store st out now).storeOf =
          storeInsert store req.id (req, .Completed)) ∨
      (run_allocation_simulation_tick req store st out now).storeOf =
        storeInsert store req.id
          (req, .Active (satAdd st.released_total (allowable_release req st)) now) := by
  rcases hg : storeGet store req.id with _ | ⟨q, s0⟩
  · left; rw [tick_of_missing req store st out now hg]; rfl
  · by_cases hc : s0 = .Cancelled
    · subst hc; left; rw [tick_of_cancelled req store st out now q hg]; rfl
    · by_cases hz : allowable_release req st = 0
      · right; left
        exact ⟨hz, by rw [tick_of_complete req store st out now q s0 hg hc hz]; rfl⟩
      · rcases out with e | u
        · left; rw [tick_of_err req store st now e q s0 hg hc hz]; rfl
        · cases u; right; right
          rw [tick_of_ok req store st now q s0 hg hc hz]; rfl

theorem pencall_tick_store_cases (req : AllocationRequest) (store : Store)
    (st : SimState) (out : Except PencallError Unit) (now : Int) :
    (pencall.run_allocation_simulation_tick req store st out now).storeOf = store ∨
      (allowable_release req st = 0 ∧
        (pencall.run_allocation_simulation_tick req store st out now).storeOf =
          storeInsert store req.id (req, .Completed)) ∨
      (pencall.run_allocation_simulation_tick req store st out now).storeOf =
        storeInsert store req.id
          (req, .Active (satAdd st.released_total (allowable_release req st)) now) := by
  by_cases hz : allowable_release req st = 0
  · right; left
    exact ⟨hz, by rw [pencall_tick_of_complete req store st out now hz]; rfl⟩
  · rcases out with e | u
    · left; rw [pencall_tick_of_err req store st now e hz]; rfl
    · cases u; right; right
      rw [pencall_tick_of_ok req store st now hz]; rfl

/-- Claim C4 (confirmed): each tick computes
`possible = min(current_chunk, requested_units - released_total)` and
`allowable = min(possible, cap - released_total)` with floor-clamped
subtraction; under an existing non-cancelled entry, a tick writes `Completed`
exactly when `allowable = 0`; and no other operation — `register_allocation`,
`activate`, or any tick branch of either loop copy — can make an allocation
`Completed` that was not already. -/
theorem completed_iff_allowable_zero :
    (∀ (req : AllocationRequest) (store : Store) (st : SimState)
        (out : Except PencallError Unit) (now : Int)
        (q : AllocationRequest) (s0 : AllocationStatus),
        storeGet store req.id = some (q, s0) → s0 ≠ .Cancelled →
        (run_allocation_simulation_tick req store st out now =
            .done (.ok ()) (storeInsert store req.id (req, .Completed)) none ↔
          allowable_release req st = 0)) ∧
    (∀ (req : AllocationRequest) (st : SimState), allowable_release req st =
        min (min st.current_chunk (req.requested_units - st.released_total))
          (req.cap_units.getD U64MAX - st.released_total)) ∧
    (∀ (pc : AllocationRequest → Except PencallError Unit) (store : Store)
        (req : AllocationRequest) (k : String) (p : AllocationRequest),
        storeGet (register_allocation pc store req).2 k = some (p, .Completed) →
        storeGet store k = some (p, .Completed)) ∧
    (∀ (store : Store) (i : String) (now : Int) (k : String)
        (p : AllocationRequest),
        storeGet (activate store i now).2.1 k = some (p, .Completed) →
        storeGet store k = some (p, .Completed)) ∧
    (∀ (req : AllocationRequest) (store : Store) (st : SimState)
        (out : Except PencallError Unit) (now : Int) (k : String)
        (p : AllocationRequest),
        storeGet (run_allocation_simulation_tick req store st out now).storeOf k =
          some (p, .Completed) →
        storeGet store k = some (p, .Completed) ∨
          (k = req.id ∧ p = req ∧ allowable_release req st = 0)) ∧
    (∀ (req : AllocationRequest) (store : Store) (st : SimState)
        (out : Except PencallError Unit) (now : Int),
        (pencall.run_allocation_simulation_tick req store st out now =
            .done (.ok ()) (storeInsert store req.id (req, .Completed)) none ↔
          allowable_release req st = 0)) ∧
    (∀ (req : AllocationRequest) (store : Store) (st : SimState)
        (out : Except PencallError Unit) (now : Int) (k : String)
        (p : AllocationRequest),
        storeGet (pencall.run_allocation_simulation_tick req store st out now).storeOf k =
          some (p, .Completed) →
        storeGet store k = some (p, .Completed) ∨
          (k = req.id ∧ p = req ∧ allowable_release req st = 0)) := by
  refine ⟨?_, fun req st => rfl, ?_, ?_, ?_, ?_, ?_⟩
  · intro req store st out now q s0 hg hs
    constructor
    · intro h
      by_contra hz
      rcases out with e | u
      · rw [tick_of_err req store st now e q s0 hg hs hz] at h
        exact absurd h (by simp)
      · cases u
        rw [tick_of_ok req store st now q s0 hg hs hz] at h
        exact absurd h (by simp)
    · intro hz
      exact tick_of_complete req store st out now q s0 hg hs hz
  · intro pc store req k p h
    rcases register_store_cases pc store req with hs | hs
    · rwa [hs] at h
    · rw [hs] at h
      by_cases hk : k = req.id
      · subst hk
        rw [storeGet_insert_self] at h
        simp at h
      · rwa [storeGet_insert_ne _ _ _ _ hk] at h
  · intro store i now k p h
    rcases activate_store_cases store i now with hs | ⟨q, hq, hs⟩
    · rwa [hs] at h
    · rw [hs] at h
      by_cases hk : k = q.id
      · subst hk
        rw [storeGet_insert_self] at h
        simp at h
      · rwa [storeGet_insert_ne _ _ _ _ hk] at h
  · intro req store st out now k p h
    rcases tick_store_cases req store st out now with hs | ⟨hz, hs⟩ | hs
    · rw [hs] at h; exact Or.inl h
    · rw [hs] at h
      by_cases hk : k = req.id
      · subst hk
        rw [storeGet_insert_self] at h
        simp at h
        exact Or.inr ⟨rfl, h.symm, hz⟩
      · rw [storeGet_insert_ne _ _ _ _ hk] at h; exact Or.inl h
    · rw [hs] at h
      by_cases hk : k = req.id
      · subst hk
        rw [storeGet_insert_self] at h
        simp at h
      · rw [storeGet_insert_ne _ _ _ _ hk] at h; exact Or.inl h
  · intro req store st out now
    constructor
    · intro h
      by_contra hz
      rcases out with e | u
      · rw [pencall_tick_of_err req store st now e hz] at h
        exact absurd h (by simp)
      · cases u
        rw [pencall_tick_of_ok req store st now hz] at h
        exact absurd h (by simp)
    · intro hz
      exact pencall_tick_of_complete req store st out now hz
  · intro req store st out now k p h
    rcases pencall_tick_store_cases req store st out now with hs | ⟨hz, hs⟩ | hs
    · rw [hs] at h; exact Or.inl h
    · rw [hs] at h
      by_cases hk : k = req.id
      · subst hk
        rw [storeGet_insert_self] at h
        simp at h
        exact Or.inr ⟨rfl, h.symm, hz⟩
      · rw [storeGet_insert_ne _ _ _ _ hk] at h; exact Or.inl h
    · rw [hs] at h
      by_cases hk : k = req.id
      · subst hk
        rw [storeGet_insert_self] at h
        simp at h
      · rw [storeGet_insert_ne _ _ _ _ hk] at h; exact Or.inl h

/-- Claim C4, witness: the completion criterion instantiated on
`excess_request`, whose first tick has `allowable = 0` and is marked
`Completed`. -/
theorem completed_iff_allowable_zero_witness :
    run_allocation_simulation_tick excess_request excess_store
        (initSimState excess_request) (.ok ()) 0 =
      .done (.ok ())
        (storeInsert excess_store excess_request.id (excess_request, .Completed))
        none :=
  (completed_iff_allowable_zero.1 excess_request excess_store
      (initSimState excess_request) (.ok ()) 0 excess_request (.Active 5 0)
      (by decide) (by decide)).mpr (by decide)

/-! ### Claim C7: termination of the scheduler loop -/

theorem run_step_done {req : AllocationRequest} {o : Nat → Except PencallError Unit}
    {c : Nat → Int} (fuel : Nat) {store : Store} {st : SimState}
    {r : Except PencallError Unit} {s' : Store} {a : Option ReleaseEvent}
    (h : run_allocation_simulation_tick req store st (o 0) (c 0) = .done r s' a) :
    run_allocation_simulation req o c (fuel + 1) store st =
      .terminated r s' a.toList := by
  simp only [run_allocation_simulation]
  rw [h]

theorem run_step_next {req : AllocationRequest} {o : Nat → Except PencallError Unit}
    {c : Nat → Int} (fuel : Nat) {store : Store} {st : SimState} {st' : SimState}
    {s' : Store} {a : Option ReleaseEvent} {r : Except PencallError Unit}
    {s2 : Store} {evs : List ReleaseEvent}
    (h : run_allocation_simulation_tick req store st (o 0) (c 0) = .next st' s' a)
    (h2 : run_allocation_simulation req (fun n => o (n + 1)) (fun n => c (n + 1))
        fuel s' st' = .terminated r s2 evs) :
    run_allocation_simulation req o c (fuel + 1) store st =
      .terminated r s2 (a.toList ++ evs) := by
  simp only [run_allocation_simulation, h, h2]

theorem run_completes_of_pow (req : AllocationRequest)
    (hreq : req.requested_units ≤ U64MAX) :
    ∀ (k : Nat) (store : Store) (st : SimState)
      (o : Nat → Except PencallError Unit) (c : Nat → Int)
      (q : AllocationRequest) (s0 : AllocationStatus),
      storeGet store req.id = some (q, s0) → s0 ≠ .Cancelled →
      (∀ n, o n = .ok ()) → 0 < st.current_chunk →
      req.requested_units ≤ st.current_chunk * 2 ^ k →
      ∃ store2 evs,
        run_allocation_simulation req o c (k + 2) store st =
          .terminated (.ok ()) store2 evs ∧
        storeGet store2 req.id = some (req, .Completed) := by
  intro k
  induction k with
  | zero =>
    intro store st o c q s0 hg hs hok hchunk hpow
    simp only [pow_zero, Nat.mul_one] at hpow
    by_cases hz : allowable_release req st = 0
    · exact ⟨storeInsert store req.id (req, .Completed), [],
        run_step_done 1 (tick_of_complete req store st (o 0) (c 0) q s0 hg hs hz),
        storeGet_insert_self _ _ _⟩
    · have ht1 : run_allocation_simulation_tick req store st (o 0) (c 0) =
          .next { released_total := satAdd st.released_total (allowable_release req st)
                  next_release := c 0 + (req.doubling_interval_seconds : Int)
                  current_chunk := satMul st.current_chunk 2 }
            (storeInsert store req.id
              (req, .Active (satAdd st.released_total (allowable_release req st)) (c 0)))
            (some { allocation_id := req.id, release_time := c 0
                    units := allowable_release req st }) := by
        rw [hok 0]
        exact tick_of_ok req store st (c 0) q s0 hg hs hz
      have h1 : satAdd st.released_total (allowable_release req st) =
          min req.requested_units (req.cap_units.getD U64MAX) := by
        simp only [allowable_release, possible_release, satAdd, U64MAX_eq] at hz hreq ⊢
        omega
      have h2 : allowable_release req
          { released_total := satAdd st.released_total (allowable_release req st)
            next_release := c 0 + (req.doubling_interval_seconds : Int)
            current_chunk := satMul st.current_chunk 2 } = 0 := by
        rw [allowable_release, possible_release, h1]
        simp only [U64MAX_eq] at *
        omega
      have ht2 := tick_of_complete req
        (storeInsert store req.id
          (req, .Active (satAdd st.released_total (allowable_release req st)) (c 0)))
        _ ((fun n => o (n + 1)) 0) ((fun n => c (n + 1)) 0) req
        (.Active (satAdd st.released_total (allowable_release req st)) (c 0))
        (storeGet_insert_self _ _ _) (by simp) h2
      exact ⟨_, _, run_step_next 1 ht1 (run_step_done 0 ht2),
        storeGet_insert_self _ _ _⟩
  | succ k ih =>
    intro store st o c q s0 hg hs hok hchunk hpow
    by_cases hz : allowable_release req st = 0
    · exact ⟨storeInsert store req.id (req, .Completed), [],
        run_step_done (k + 2) (tick_of_complete req store st (o 0) (c 0) q s0 hg hs hz),
        storeGet_insert_self _ _ _⟩
    · have ht1 : run_allocation_simulation_tick req store st (o 0) (c 0) =
          .next { released_total := satAdd st.released_total (allowable_release req st)
                  next_release := c 0 + (req.doubling_interval_seconds : Int)
                  current_chunk := satMul st.current_chunk 2 }
            (storeInsert store req.id
              (req, .Active (satAdd st.released_total (allowable_release req st)) (c 0)))
            (some { allocation_id := req.id, release_time := c 0
                    units := allowable_release req st }) := by
        rw [hok 0]
        exact tick_of_ok req store st (c 0) q s0 hg hs hz
      by_cases hcl : allowable_release req st = st.current_chunk
      · have hchunk1 : 0 < satMul st.current_chunk 2 := by
          simp only [satMul, U64MAX_eq]
          omega
        have hpow1 : req.requested_units ≤ satMul st.current_chunk 2 * 2 ^ k := by
          rcases le_or_lt (st.current_chunk * 2) U64MAX with hle | hlt
          · have hsm : satMul st.current_chunk 2 = st.current_chunk * 2 := by
              simp only [satMul]
              omega
            rw [hsm]
            calc req.requested_units ≤ st.current_chunk * 2 ^ (k + 1) := hpow
              _ = st.current_chunk * 2 * 2 ^ k := by ring
          · have hsm : satMul st.current_chunk 2 = U64MAX := by
              simp only [satMul]
              omega
            rw [hsm]
            calc req.requested_units ≤ U64MAX := hreq
              _ ≤ U64MAX * 2 ^ k := Nat.le_mul_of_pos_right _ (pow_pos (by norm_num) k)
        obtain ⟨store2, evs, hrun, hget⟩ := ih
          (storeInsert store req.id
            (req, .Active (satAdd st.released_total (allowable_release req st)) (c 0)))
          { released_total := satAdd st.released_total (allowable_release req st)
            next_release := c 0 + (req.doubling_interval_seconds : Int)
            current_chunk := satMul st.current_chunk 2 }
          (fun n => o (n + 1)) (fun n => c (n + 1)) req
          (.Active (satAdd st.released_total (allowable_release req st)) (c 0))
          (storeGet_insert_self _ _ _) (by simp) (fun n => hok (n + 1))
          hchunk1 hpow1
        exact ⟨store2, _, run_step_next (k + 2) ht1 hrun, hget⟩
      · have h1 : satAdd st.released_total (allowable_release req st) =
            min req.requested_units (req.cap_units.getD U64MAX) := by
          simp only [allowable_release, possible_release, satAdd, U64MAX_eq] at hz hcl hreq ⊢
          omega
        have h2 : allowable_release req
            { released_total := satAdd st.released_total (allowable_release req st)
              next_release := c 0 + (req.doubling_interval_seconds : Int)
              current_chunk := satMul st.current_chunk 2 } = 0 := by
          rw [allowable_release, possible_release, h1]
          simp only [U64MAX_eq] at *
          omega
        have ht2 := tick_of_complete req
          (storeInsert store req.id
            (req, .Active (satAdd st.released_total (allowable_release req st)) (c 0)))
          _ ((fun n => o (n + 1)) 0) ((fun n => c (n + 1)) 0) req
          (.Active (satAdd st.released_total (allowable_release req st)) (c 0))
          (storeGet_insert_self _ _ _) (by simp) h2
        exact ⟨_, _, run_step_next (k + 2) ht1 (run_step_done (k + 1) ht2),
          storeGet_insert_self _ _ _⟩

/-- Claim C7 (confirmed): for any request with positive `requested_units` and
`doubling_interval_seconds`, an always-succeeding provider, and a store entry
that exists and is not cancelled, the scheduler loop reaches `Completed`
within `ceil(log2(requested_units / max(1, initial_release.unwrap_or(1)) + 1)) + 2`
ticks; the chunk doubles every tick, so the tick count is logarithmic in the
requested total. -/
theorem scheduler_reaches_completed (req : AllocationRequest) (store : Store)
    (q : AllocationRequest) (s0 : AllocationStatus)
    (o : Nat → Except PencallError Unit) (c : Nat → Int)
    (hpos : 0 < req.requested_units) (hdbl : 0 < req.doubling_interval_seconds)
    (hmax : req.requested_units ≤ U64MAX)
    (hg : storeGet store req.id = some (q, s0)) (hs : s0 ≠ .Cancelled)
    (hok : ∀ n, o n = .ok ()) :
    ∃ store2 evs,
      run_allocation_simulation req o c
        (Nat.clog 2 (req.requested_units / max 1 (req.initial_release.getD 1) + 1) + 2)
        store (initSimState req) =
        .terminated (.ok ()) store2 evs ∧
      storeGet store2 req.id = some (req, .Completed) := by
  have hc0pos : 0 < max 1 (req.initial_release.getD 1) :=
    Nat.lt_of_lt_of_le Nat.zero_lt_one (le_max_left 1 _)
  have hpow : req.requested_units ≤
      max 1 (req.initial_release.getD 1) *
        2 ^ (Nat.clog 2 (req.requested_units / max 1 (req.initial_release.getD 1) + 1)) := by
    have h2 : req.requested_units / max 1 (req.initial_release.getD 1) + 1 ≤
        2 ^ (Nat.clog 2 (req.requested_units / max 1 (req.initial_release.getD 1) + 1)) :=
      Nat.le_pow_clog (by norm_num) _
    have h3 := Nat.div_add_mod req.requested_units (max 1 (req.initial_release.getD 1))
    have h4 : req.requested_units % max 1 (req.initial_release.getD 1) <
        max 1 (req.initial_release.getD 1) := Nat.mod_lt _ hc0pos
    calc req.requested_units ≤
        max 1 (req.initial_release.getD 1) *
          (req.requested_units / max 1 (req.initial_release.getD 1) + 1) := by
          rw [Nat.mul_add, Nat.mul_one]
          omega
      _ ≤ _ := mul_le_mul_left' h2 _
  exact run_completes_of_pow req hmax _ store (initSimState req) o c q s0 hg hs hok
    hc0pos hpow

/-- Claim C7, witness: the demo request's run terminates `Completed` within
the bound (here `clog2 17 + 2 = 7` ticks). -/
theorem scheduler_reaches_completed_witness :
    ∃ store2 evs,
      run_allocation_simulation demo_request consoleProviderOutcomes zeroClock
        (Nat.clog 2 (demo_request.requested_units /
            max 1 (demo_request.initial_release.getD 1) + 1) + 2)
        demo_store (initSimState demo_request) =
        .terminated (.ok ()) store2 evs ∧
      storeGet store2 demo_request.id = some (demo_request, .Completed) :=
  scheduler_reaches_completed demo_request demo_store demo_request (.Active 1 0)
    consoleProviderOutcomes zeroClock (by decide) (by decide) (by decide)
    (by decide) (by decide) (fun n => rfl)

/-! ### Claim C8: the `register_allocation` contract -/

/-- Claim C8 (confirmed): `register_allocation` evaluates the policy first
(its error, `Unauthorized` for a rejection, is returned before any
validation), then validates `requested_units > 0` and
`doubling_interval_seconds > 0`, then rejects duplicate identifiers with
`InvalidArgs`; every error path leaves the store unchanged, and on success
the allocation exists with status `Pending`. -/
theorem register_allocation_contract
    (pc : AllocationRequest → Except PencallError Unit) (store : Store)
    (req : AllocationRequest) :
    (∀ e, pc req = .error e →
        register_allocation pc store req = (.error e, store)) ∧
    (pc req = .error .Unauthorized →
        register_allocation pc store req = (.error .Unauthorized, store)) ∧
    (pc req = .ok () → req.requested_units = 0 →
        register_allocation pc store req =
          (.error (.InvalidArgs "requested_units must be > 0"), store)) ∧
    (pc req = .ok () → req.requested_units ≠ 0 →
        req.doubling_interval_seconds = 0 →
        register_allocation pc store req =
          (.error (.InvalidArgs "doubling_interval_seconds must be > 0"), store)) ∧
    (pc req = .ok () → req.requested_units ≠ 0 →
        req.doubling_interval_seconds ≠ 0 → storeContains store req.id = true →
        register_allocation pc store req =
          (.error (.InvalidArgs "id already exists"), store)) ∧
    (pc req = .ok () → req.requested_units ≠ 0 →
        req.doubling_interval_seconds ≠ 0 → storeContains store req.id = false →
        register_allocation pc store req =
          (.ok (), storeInsert store req.id (req, .Pending)) ∧
        storeGet (register_allocation pc store req).2 req.id =
          some (req, .Pending)) ∧
    (∀ e s', register_allocation pc store req = (.error e, s') → s' = store) := by
  refine ⟨?_, ?_, ?_, ?_, ?_, ?_, ?_⟩
  · intro e hpc
    simp [register_allocation, hpc]
  · intro hpc
    simp [register_allocation, hpc]
  · intro hpc h1
    simp [register_allocation, hpc, h1]
  · intro hpc h1 h2
    simp [register_allocation, hpc, h1, h2]
  · intro hpc h1 h2 h3
    simp [register_allocation, hpc, h1, h2, h3]
  · intro hpc h1 h2 h3
    have hr : register_allocation pc store req =
        (.ok (), storeInsert store req.id (req, .Pending)) := by
      simp [register_allocation, hpc, h1, h2, h3]
    exact ⟨hr, by rw [hr]; exact storeGet_insert_self _ _ _⟩
  · intro e s' h
    cases hpc : pc req with
    | error e0 =>
      simp only [register_allocation, hpc] at h
      exact (Prod.mk.inj h).2.symm
    | ok u =>
      by_cases h1 : req.requested_units = 0
      · simp only [register_allocation, hpc, h1, if_pos] at h
        exact (Prod.mk.inj h).2.symm
      · by_cases h2 : req.doubling_interval_seconds = 0
        · simp only [register_allocation, hpc, h1, h2] at h
          simp at h
          exact h.2.symm
        · by_cases h3 : storeContains store req.id
          · simp only [register_allocation, hpc, h1, h2, h3] at h
            simp at h
            exact h.2.symm
          · simp only [register_allocation, hpc, h1, h2, h3] at h
            simp at h

/-- Claim C8, witness: the contract instantiated on the demo request for a
rejecting policy, a fresh store, and a duplicate registration. -/
theorem register_allocation_contract_witness :
    register_allocation rejectAll [] demo_request = (.error .Unauthorized, []) ∧
    register_allocation approveAll [] demo_request =
      (.ok (), [("demo1", (demo_request, .Pending))]) ∧
    register_allocation approveAll demo_store demo_request =
      (.error (.InvalidArgs "id already exists"), demo_store) :=
  ⟨(register_allocation_contract rejectAll [] demo_request).2.1 rfl,
    ((register_allocation_contract approveAll [] demo_request).2.2.2.2.2.1 rfl
      (by decide) (by decide) (by decide)).1,
    (register_allocation_contract approveAll demo_store demo_request).2.2.2.2.1 rfl
      (by decide) (by decide) (by decide)⟩

/-! ### Claim C9: the `activate` contract -/

/-- Claim C9 (confirmed): `activate` fails with `InvalidArgs` and leaves the
store unchanged when the identifier is absent or the status is anything other
than `Pending`; on success it writes
`Active {released := initial_release.unwrap_or(0), last_release_at := now}`
and returns at once, handing the request to the spawned scheduler task
without performing any release. -/
theorem activate_contract (store : Store) (i : String) (now : Int) :
    (storeGet store i = none →
        activate store i now =
          (.error (.InvalidArgs "allocation not found"), store, none)) ∧
    (∀ q s0, storeGet store i = some (q, s0) → s0 ≠ .Pending →
        activate store i now =
          (.error (.InvalidArgs "allocation not in pending state"), store, none)) ∧
    (∀ q, storeGet store i = some (q, .Pending) →
        activate store i now =
          (.ok (), storeInsert store q.id (q, .Active (q.initial_release.getD 0) now),
            some q) ∧
        storeGet (activate store i now).2.1 q.id =
          some (q, .Active (q.initial_release.getD 0) now)) := by
  refine ⟨?_, ?_, ?_⟩
  · intro hg
    simp [activate, hg]
  · intro q s0 hg hs
    simp [activate, hg, hs]
  · intro q hg
    have ha : activate store i now =
        (.ok (), storeInsert store q.id (q, .Active (q.initial_release.getD 0) now),
          some q) := by
      simp [activate, hg]
    exact ⟨ha, by rw [ha]; exact storeGet_insert_self _ _ _⟩

/-- Claim C9, witness: activation of a pending demo allocation succeeds and
writes `Active 1`, while activating an already-active, and a missing,
allocation fails with `InvalidArgs` and changes nothing. -/
theorem activate_contract_witness :
    activate [("demo1", (demo_request, .Pending))] "demo1" 0 =
      (.ok (), [("demo1", (demo_request, .Active 1 0))], some demo_request) ∧
    activate demo_store "demo1" 5 =
      (.error (.InvalidArgs "allocation not in pending state"), demo_store, none) ∧
    activate [] "demo1" 0 =
      (.error (.InvalidArgs "allocation not found"), [], none) :=
  ⟨((activate_contract [("demo1", (demo_request, .Pending))] "demo1" 0).2.2
      demo_request (by decide)).1,
    (activate_contract demo_store "demo1" 5).2.1 demo_request (.Active 1 0)
      (by decide) (by decide),
    (activate_contract [] "demo1" 0).1 rfl⟩

/-! ### Claim C10: `initial_release` is never validated -/

/-- Claim C10, counterexample: for `excess_request`
(`requested_units = 1`, `cap_units = 10`, `initial_release = 5`, so
`initial_release` exceeds `min(requested_units, cap_units) = 1`), register
and activate succeed and the first tick completes with `released = 5`; 5 is
strictly greater than the effective ceiling, but not strictly greater than
both ceilings (`5 > 10` is false), refuting that conjunct of the claim. -/
theorem excess_both_ceilings_counterexample :
    register_allocation approveAll [] excess_request =
      (.ok (), [("x", (excess_request, .Pending))]) ∧
    activate [("x", (excess_request, .Pending))] "x" 0 =
      (.ok (), [("x", (excess_request, .Active 5 0))], some excess_request) ∧
    run_allocation_simulation_tick excess_request excess_store
        (initSimState excess_request) (.ok ()) 0 =
      .done (.ok ()) [("x", (excess_request, .Completed))] none ∧
    min excess_request.requested_units (excess_request.cap_units.getD U64MAX) < 5 ∧
    ¬ (5 > excess_request.requested_units ∧
        5 > excess_request.cap_units.getD U64MAX) := by
  decide

/-- Claim C10 (amended): when `initial_release` exceeds
`min(requested_units, cap_units-or-MAX)`, `register_allocation` and
`activate` still succeed (the field is never validated), activation stores
`Active {released := initial_release}`, and the scheduler's first tick
computes `allowable = 0` and marks the allocation `Completed` with released
total equal to `initial_release` — strictly greater than the effective
ceiling `min(requested_units, cap_units)`, though not necessarily greater
than each of the two ceilings individually. -/
theorem initial_release_unvalidated
    (pc : AllocationRequest → Except PencallError Unit) (store : Store)
    (req : AllocationRequest) (i : Nat) (now now2 : Int)
    (out : Except PencallError Unit)
    (hpc : pc req = .ok ()) (h1 : req.requested_units ≠ 0)
    (h2 : req.doubling_interval_seconds ≠ 0)
    (h3 : storeContains store req.id = false)
    (hi : req.initial_release = some i)
    (hgt : min req.requested_units (req.cap_units.getD U64MAX) < i) :
    register_allocation pc store req =
      (.ok (), storeInsert store req.id (req, .Pending)) ∧
    activate (storeInsert store req.id (req, .Pending)) req.id now =
      (.ok (), storeInsert (storeInsert store req.id (req, .Pending)) req.id
        (req, .Active i now), some req) ∧
    storeGet (storeInsert (storeInsert store req.id (req, .Pending)) req.id
        (req, .Active i now)) req.id = some (req, .Active i now) ∧
    (initSimState req).released_total = i ∧
    allowable_release req (initSimState req) = 0 ∧
    run_allocation_simulation_tick req
      (storeInsert (storeInsert store req.id (req, .Pending)) req.id
        (req, .Active i now))
      (initSimState req) out now2 =
      .done (.ok ())
        (storeInsert (storeInsert (storeInsert store req.id (req, .Pending)) req.id
          (req, .Active i now)) req.id (req, .Completed)) none := by
  have hreg : register_allocation pc store req =
      (.ok (), storeInsert store req.id (req, .Pending)) := by
    simp [register_allocation, hpc, h1, h2, h3]
  have hact : activate (storeInsert store req.id (req, .Pending)) req.id now =
      (.ok (), storeInsert (storeInsert store req.id (req, .Pending)) req.id
        (req, .Active i now), some req) := by
    have hgp : storeGet (storeInsert store req.id (req, .Pending)) req.id =
        some (req, .Pending) := storeGet_insert_self _ _ _
    simp [activate, hgp, hi]
  have hrel : (initSimState req).released_total = i := by
    simp [initSimState, hi]
  have hz : allowable_release req (initSimState req) = 0 := by
    simp only [allowable_release, possible_release, initSimState, hi,
      Option.getD_some, U64MAX_eq] at hgt ⊢
    omega
  have htick := tick_of_complete req
    (storeInsert (storeInsert store req.id (req, .Pending)) req.id
      (req, .Active i now))
    (initSimState req) out now2 req (.Active i now)
    (storeGet_insert_self _ _ _) (by simp) hz
  exact ⟨hreg, hact, storeGet_insert_self _ _ _, hrel, hz, htick⟩

/-- Claim C10, witness: the amended behaviour instantiated on
`excess_request`. -/
theorem initial_release_unvalidated_witness :
    register_allocation approveAll [] excess_request =
      (.ok (), storeInsert [] excess_request.id (excess_request, .Pending)) ∧
    activate (storeInsert [] excess_request.id (excess_request, .Pending))
        excess_request.id 0 =
      (.ok (), storeInsert (storeInsert [] excess_request.id
        (excess_request, .Pending)) excess_request.id
        (excess_request, .Active 5 0), some excess_request) ∧
    storeGet (storeInsert (storeInsert [] excess_request.id
        (excess_request, .Pending)) excess_request.id
        (excess_request, .Active 5 0)) excess_request.id =
      some (excess_request, .Active 5 0) ∧
    (initSimState excess_request).released_total = 5 ∧
    allowable_release excess_request (initSimState excess_request) = 0 ∧
    run_allocation_simulation_tick excess_request
      (storeInsert (storeInsert [] excess_request.id
        (excess_request, .Pending)) excess_request.id
        (excess_request, .Active 5 0))
      (initSimState excess_request) (.ok ()) 0 =
      .done (.ok ())
        (storeInsert (storeInsert (storeInsert [] excess_request.id
          (excess_request, .Pending)) excess_request.id
          (excess_request, .Active 5 0)) excess_request.id
          (excess_request, .Completed)) none :=
  initial_release_unvalidated approveAll [] excess_request 5 0 0 (.ok ()) rfl
    (by decide) (by decide) (by decide) (by decide) (by decide)
